import Mathlib

/-!
Shallow embedding of the lasr token state model and wallet client.

Source files embedded:
- src/src/token.rs            (Token, diff algebra, TokenWitness, TransactionGraph)
- src/src/clients/wallet.rs   (Wallet::send, Wallet::call, Wallet::account)
- src/crates/actors/src/lib.rs (MAX_BATCH_SIZE, ETH_PROGRAM_ID, VERSE_PROGRAM_ID)

The balance type in the source is ethereum_types::U256, whose arithmetic
panics on overflow and underflow.  We embed U256 values as Nat and model the
panicking operators as Option-returning checked operations: none stands for
the panic.
-/

namespace Lasr

/-- The number of values of a 256-bit unsigned integer; U256 arithmetic in the
source panics when a sum reaches this bound or a difference goes below zero. -/
def U256.size : Nat := 2 ^ 256

/-- Checked U256 addition: the uint crate panics on overflow, modelled as none. -/
def u256Add (a b : Nat) : Option Nat :=
  if a + b < U256.size then some (a + b) else none

/-- Checked U256 subtraction: the uint crate panics on underflow, modelled as none. -/
def u256Sub (a b : Nat) : Option Nat :=
  if b ≤ a then some (a - b) else none

/-- An address is 20 bytes in the source; embedded as a list of byte values. -/
abbrev Address := List Nat

/-- A transaction digest is 32 bytes in the source; embedded as a list of bytes. -/
abbrev Digest := List Nat

/-- Lexicographic comparison of byte strings, mirroring the derived Ord on
fixed-width byte arrays that keys the BTreeMap fields of Token. -/
def cmpBytes : List Nat → List Nat → Ordering
  | [], [] => .eq
  | [], _ :: _ => .lt
  | _ :: _, [] => .gt
  | a :: as, b :: bs =>
    if a < b then .lt else if b < a then .gt else cmpBytes as bs

/-- Strict byte-string order derived from cmpBytes. -/
def addrLtB (a b : Address) : Bool := cmpBytes a b == Ordering.lt

/-- The entries of a BTreeMap from Address to U256, embedded as an association
list kept sorted by strictly ascending key, which is how a BTreeMap iterates. -/
abbrev AddrMap := List (Address × Nat)

/-- The sortedness invariant a BTreeMap maintains: adjacent keys are strictly
ascending (hence all keys distinct once transitivity is applied). -/
def mapKeysSorted (m : AddrMap) : Prop :=
  List.Chain' (fun p q => addrLtB p.1 q.1 = true) m

instance (m : AddrMap) : Decidable (mapKeysSorted m) :=
  inferInstanceAs (Decidable (List.Chain'
    (fun p q : Address × Nat => addrLtB p.1 q.1 = true) m))

/-- BTreeMap insert: place the binding at its ordered position, replacing the
value when the key is already present. -/
def mapInsert (k : Address) (v : Nat) : AddrMap → AddrMap
  | [] => [(k, v)]
  | (k₁, v₁) :: rest =>
    match cmpBytes k k₁ with
    | .lt => (k, v) :: (k₁, v₁) :: rest
    | .eq => (k, v) :: rest
    | .gt => (k₁, v₁) :: mapInsert k v rest

/-- BTreeMap remove by key. -/
def mapRemove (k : Address) : AddrMap → AddrMap
  | [] => []
  | (k₁, v₁) :: rest =>
    match cmpBytes k k₁ with
    | .eq => rest
    | _ => (k₁, v₁) :: mapRemove k rest

/-- Token status from src/src/token.rs: Locked or Free. -/
inductive Status where
  | Locked
  | Free
deriving DecidableEq, Repr

/-- Token from src/src/token.rs: per-(program, owner) state.  metadata and
data are opaque byte containers (Metadata, ArbitraryData); token_ids is a
sequence of U256 ids; allowance and approvals are BTreeMaps from Address to
U256, embedded as sorted association lists. -/
structure Token where
  program_id : Address
  owner_id : Address
  balance : Nat
  metadata : List Nat
  token_ids : List Nat
  allowance : AddrMap
  approvals : AddrMap
  data : List Nat
  status : Status
deriving DecidableEq, Repr

/-- Token::update_balance from src/src/token.rs lines 205-208:
self.balance += receive; self.balance -= send; with U256 panic on
overflow or underflow modelled as none.  No status check appears in the
source. -/
def Token.update_balance (t : Token) (receive send : Nat) : Option Token := do
  let b₁ ← u256Add t.balance receive
  let b₂ ← u256Sub b₁ send
  pure { t with balance := b₂ }

/-- impl AddAssign for Token, src/src/token.rs lines 218-222:
self.balance += rhs.balance(); rhs is consumed by value and only the balance
field of self is written. -/
def Token.addAssign (t rhs : Token) : Option Token := do
  let b ← u256Add t.balance rhs.balance
  pure { t with balance := b }

/-- impl SubAssign for Token, src/src/token.rs lines 224-228:
self.balance -= rhs.balance(). -/
def Token.subAssign (t rhs : Token) : Option Token := do
  let b ← u256Sub t.balance rhs.balance
  pure { t with balance := b }

/-- TokenField from src/src/token.rs lines 80-91. -/
inductive TokenField where
  | ProgramId
  | OwnerId
  | Balance
  | Metadata
  | TokenIds
  | Allowance
  | Approvals
  | Data
  | Status
deriving DecidableEq, Repr

/-- BalanceValue from src/src/token.rs lines 104-108. -/
inductive BalanceValue where
  | Credit (amount : Nat)
  | Debit (amount : Nat)
deriving DecidableEq, Repr

/-- MetadataValue from src/src/token.rs lines 110-118. -/
inductive MetadataValue where
  | ReplaceAll (m : List Nat)
  | ReplaceSlice (start stop : Nat) (bytes : List Nat)
  | ReplaceByte (i : Nat) (b : Nat)
  | Extend (m : List Nat)
  | Push (b : Nat)
  | Pop
deriving DecidableEq, Repr

/-- TokenIdValue from src/src/token.rs lines 120-127. -/
inductive TokenIdValue where
  | Push (id : Nat)
  | Extend (ids : List Nat)
  | Insert (i : Nat) (id : Nat)
  | Pop
  | Remove (id : Nat)
deriving DecidableEq, Repr

/-- AllowanceValue from src/src/token.rs lines 129-134. -/
inductive AllowanceValue where
  | Insert (a : Address) (amount : Nat)
  | Extend (entries : List (Address × Nat))
  | Remove (a : Address) (amount : Nat)
deriving DecidableEq, Repr

/-- ApprovalsValue from src/src/token.rs lines 136-141. -/
inductive ApprovalsValue where
  | Insert (a : Address) (amount : Nat)
  | Extend (entries : List (Address × Nat))
  | Remove (a : Address) (amount : Nat)
deriving DecidableEq, Repr

/-- DataValue from src/src/token.rs lines 143-151 (its Extend variant carries
a Metadata in the source). -/
inductive DataValue where
  | ReplaceAll (d : List Nat)
  | ReplaceSlice (start stop : Nat) (bytes : List Nat)
  | ReplaceByte (i : Nat) (b : Nat)
  | Extend (m : List Nat)
  | Push (b : Nat)
  | Pop
deriving DecidableEq, Repr

/-- StatusValue from src/src/token.rs lines 153-158. -/
inductive StatusValue where
  | Reverse
  | Lock
  | Unlock
deriving DecidableEq, Repr

/-- TokenFieldValue from src/src/token.rs lines 93-102: the closed set of
field-scoped diff operations on a Token. -/
inductive TokenFieldValue where
  | Balance (v : BalanceValue)
  | Metadata (v : MetadataValue)
  | TokenIds (v : TokenIdValue)
  | Allowance (v : AllowanceValue)
  | Approvals (v : ApprovalsValue)
  | Data (v : DataValue)
  | Status (v : StatusValue)
deriving DecidableEq, Repr

/-- Replace the half-open byte range [start, stop) of a byte list, failing
(none) when the range is out of bounds or the replacement has a different
length; the spec demands failure, not clamping, on out-of-range slices. -/
def replaceSlice (l : List Nat) (start stop : Nat) (bytes : List Nat) :
    Option (List Nat) :=
  if start ≤ stop ∧ stop ≤ l.length ∧ bytes.length = stop - start then
    some (l.take start ++ bytes ++ l.drop stop)
  else none

/-- Replace one byte at index i, failing when i is out of range. -/
def replaceByte (l : List Nat) (i : Nat) (b : Nat) : Option (List Nat) :=
  if i < l.length then some (l.set i b) else none

/-- Modelled from the spec: diff application for the Balance field.  The
application function for TokenFieldValue is not under src/ (only the enum
declarations are); the spec says Balance diffs are Credit and Debit on the
unsigned balance, deterministic, failing rather than clamping. -/
def applyBalanceValue (v : BalanceValue) (t : Token) : Option Token :=
  match v with
  | .Credit a => (u256Add t.balance a).map (fun b => { t with balance := b })
  | .Debit a => (u256Sub t.balance a).map (fun b => { t with balance := b })

/-- Modelled from the spec: diff application for the Metadata field
(ReplaceAll, ReplaceSlice, ReplaceByte, Extend, Push, Pop), failing on
out-of-range slice and index operations. -/
def applyMetadataValue (v : MetadataValue) (t : Token) : Option Token :=
  match v with
  | .ReplaceAll m => some { t with metadata := m }
  | .ReplaceSlice start stop bytes =>
    (replaceSlice t.metadata start stop bytes).map
      (fun m => { t with metadata := m })
  | .ReplaceByte i b =>
    (replaceByte t.metadata i b).map (fun m => { t with metadata := m })
  | .Extend m => some { t with metadata := t.metadata ++ m }
  | .Push b => some { t with metadata := t.metadata ++ [b] }
  | .Pop => some { t with metadata := t.metadata.dropLast }

/-- Modelled from the spec: diff application for the token_ids field
(Push, Extend, Insert, Pop, Remove), failing on an out-of-range insert. -/
def applyTokenIdValue (v : TokenIdValue) (t : Token) : Option Token :=
  match v with
  | .Push id => some { t with token_ids := t.token_ids ++ [id] }
  | .Extend ids => some { t with token_ids := t.token_ids ++ ids }
  | .Insert i id =>
    if i ≤ t.token_ids.length then
      some { t with token_ids := t.token_ids.take i ++ id :: t.token_ids.drop i }
    else none
  | .Pop => some { t with token_ids := t.token_ids.dropLast }
  | .Remove id => some { t with token_ids := t.token_ids.erase id }

/-- Modelled from the spec: diff application for the allowance BTreeMap
(Insert, Extend, Remove). -/
def applyAllowanceValue (v : AllowanceValue) (t : Token) : Option Token :=
  match v with
  | .Insert a amount => some { t with allowance := mapInsert a amount t.allowance }
  | .Extend entries =>
    some { t with allowance :=
      entries.foldl (fun m p => mapInsert p.1 p.2 m) t.allowance }
  | .Remove a _ => some { t with allowance := mapRemove a t.allowance }

/-- Modelled from the spec: diff application for the approvals BTreeMap
(Insert, Extend, Remove). -/
def applyApprovalsValue (v : ApprovalsValue) (t : Token) : Option Token :=
  match v with
  | .Insert a amount => some { t with approvals := mapInsert a amount t.approvals }
  | .Extend entries =>
    some { t with approvals :=
      entries.foldl (fun m p => mapInsert p.1 p.2 m) t.approvals }
  | .Remove a _ => some { t with approvals := mapRemove a t.approvals }

/-- Modelled from the spec: diff application for the data field, the same
byte operations as for metadata. -/
def applyDataValue (v : DataValue) (t : Token) : Option Token :=
  match v with
  | .ReplaceAll d => some { t with data := d }
  | .ReplaceSlice start stop bytes =>
    (replaceSlice t.data start stop bytes).map (fun d => { t with data := d })
  | .ReplaceByte i b =>
    (replaceByte t.data i b).map (fun d => { t with data := d })
  | .Extend m => some { t with data := t.data ++ m }
  | .Push b => some { t with data := t.data ++ [b] }
  | .Pop => some { t with data := t.data.dropLast }

/-- Modelled from the spec: diff application for the status field
(Reverse toggles, Lock, Unlock). -/
def applyStatusValue (v : StatusValue) (t : Token) : Option Token :=
  match v with
  | .Reverse =>
    some { t with status := match t.status with
      | .Locked => .Free
      | .Free => .Locked }
  | .Lock => some { t with status := .Locked }
  | .Unlock => some { t with status := .Free }

/-- Modelled from the spec: application of one TokenFieldValue diff to a
Token.  The application function is not under src/; the spec says it is
deterministic and fails (does not clamp) on out-of-range operations. -/
def applyTokenFieldValue (fv : TokenFieldValue) (t : Token) : Option Token :=
  match fv with
  | .Balance v => applyBalanceValue v t
  | .Metadata v => applyMetadataValue v t
  | .TokenIds v => applyTokenIdValue v t
  | .Allowance v => applyAllowanceValue v t
  | .Approvals v => applyApprovalsValue v t
  | .Data v => applyDataValue v t
  | .Status v => applyStatusValue v t

/-- Modelled from the spec: TransactionType is declared outside src/ (the
wallet imports it from the crate root).  The wallet only constructs the
Send variant carrying a nonce; the spec (section 6) also names a program
invocation (call) transaction kind, so the model carries both. -/
inductive TransactionType where
  | Send (nonce : Nat)
  | Call (nonce : Nat)
deriving DecidableEq, Repr

/-- Payload, per the spec wallet boundary: transaction_type, from, to,
program_id, inputs, value.  The field named from in the source is from_
here because from is reserved in Lean. -/
structure Payload where
  transaction_type : TransactionType
  from_ : Address
  to_ : Address
  program_id : Address
  inputs : String
  value : Nat
deriving DecidableEq, Repr

/-- Modelled from the spec: the deterministic hash of a payload that the
wallet signs over.  Its exact definition is an excluded collaborator; only
determinism matters here, so it is a plain function of the payload. -/
def Payload.hash (p : Payload) : List Nat :=
  (match p.transaction_type with
    | .Send n => [0, n]
    | .Call n => [1, n]) ++ p.from_ ++ p.to_ ++ p.program_id ++
    (p.inputs.toList.map Char.toNat) ++ [p.value]

/-- Modelled from the spec: ECDSA recoverable signing is an excluded
collaborator; the signature is a deterministic function of the secret key
and the payload hash. -/
def signPayload (sk : List Nat) (p : Payload) : List Nat :=
  sk ++ p.hash

/-- Transaction = (Payload, RecoverableSignature) per the spec wallet
boundary; the signature is opaque bytes. -/
structure Transaction where
  payload : Payload
  sig : List Nat
deriving DecidableEq, Repr

/-- Modelled from the spec: Account is declared outside src/.  It holds a
monotonic nonce and a balance/token set, here a mapping from program
address to Token. -/
structure Account where
  nonce : Nat
  tokens : List (Address × Token)
deriving DecidableEq, Repr

/-- Modelled from the spec: Account::validate_balance is side-effect-free
and checks that the sender balance for the named program is at least the
value being moved. -/
def Account.validate_balance (a : Account) (program_id : Address)
    (value : Nat) : Except String Unit :=
  match a.tokens.find? (fun p => p.1 == program_id) with
  | some p => if value ≤ p.2.balance then .ok () else .error "insufficient balance"
  | none => if value = 0 then .ok () else .error "no token for program"

/-- Modelled from the spec: Account::apply_send_transaction advances the
nonce and stores the token returned by the client for the program. -/
def Account.apply_send_transaction (a : Account) (tx : Transaction)
    (tok : Token) : Except String Account :=
  .ok { a with
        nonce := a.nonce + 1
        tokens := (tx.payload.program_id, tok) ::
          a.tokens.filter (fun p => !(p.1 == tx.payload.program_id)) }

/-- Modelled from the spec: Account::apply_call_transaction advances the
nonce and applies the returned token deltas to the token of the program,
failing when a delta fails or no token exists. -/
def Account.apply_call_transaction (a : Account) (tx : Transaction)
    (deltas : List TokenFieldValue) : Except String Account :=
  match a.tokens.find? (fun p => p.1 == tx.payload.program_id) with
  | none => .error "no token for program"
  | some p =>
    match deltas.foldlM (fun t fv => applyTokenFieldValue fv t) p.2 with
    | none => .error "delta application failed"
    | some tok =>
      .ok { a with
            nonce := a.nonce + 1
            tokens := (tx.payload.program_id, tok) ::
              a.tokens.filter (fun q => !(q.1 == tx.payload.program_id)) }

/-- The RPC client trait bound (LasrRpcClient) over which Wallet is generic:
send returns the resulting Token, call returns the set of token deltas. -/
structure RpcClient where
  send : Transaction → Except String Token
  call : Transaction → Except String (List TokenFieldValue)

/-- Wallet from src/src/clients/wallet.rs lines 16-26: client, secret key,
payload builder (elided: the builder is pure construction state), address
and account. -/
structure Wallet where
  client : RpcClient
  sk : List Nat
  address : Address
  account : Account

/-- Wallet::account from src/src/clients/wallet.rs lines 119-121: the body
is todo, an unconditional panic, modelled as an error value. -/
def Wallet.fetchAccount (_w : Wallet) : Except String Account :=
  .error "not yet implemented"

/-- The payload Wallet::send builds, src/src/clients/wallet.rs lines 41-48:
transaction_type is Send of the nonce of the account snapshot, inputs is
the empty string. -/
def sendPayload (account : Account) (address to_ program_id : Address)
    (value : Nat) : Payload :=
  { transaction_type := .Send account.nonce
    from_ := address
    to_ := to_
    program_id := program_id
    inputs := ""
    value := value }

/-- The payload Wallet::call builds, src/src/clients/wallet.rs lines 83-90:
despite taking op and inputs arguments, the builder passes a fresh empty
string as inputs and the Send transaction type of the account nonce. -/
def callPayload (account : Account) (address : Address)
    (program_id to_ : Address) (value : Nat) (_op _inputs : String) : Payload :=
  { transaction_type := .Send account.nonce
    from_ := address
    to_ := to_
    program_id := program_id
    inputs := ""
    value := value }

/-- Wallet::send from src/src/clients/wallet.rs lines 30-67: fetch the
account (todo, so this always errors), validate the balance, build and sign
the payload, submit via the client, then apply the send transaction to the
stored account. -/
def Wallet.send (w : Wallet) (to_ program_id : Address) (value : Nat) :
    Except String (Wallet × Transaction) := do
  let account ← w.fetchAccount
  let address := w.address
  let _ ← account.validate_balance program_id value
  let payload := sendPayload account address to_ program_id value
  let sig := signPayload w.sk payload
  let transaction : Transaction := ⟨payload, sig⟩
  let token ← w.client.send transaction
  let account₁ ← w.account.apply_send_transaction transaction token
  pure ({ w with account := account₁ }, transaction)

/-- Wallet::call from src/src/clients/wallet.rs lines 69-109: fetch the
account (todo, so this always errors), validate the balance, build and sign
the payload (op and inputs unused), submit via the client, then apply the
call transaction with the returned deltas. -/
def Wallet.call (w : Wallet) (program_id to_ : Address) (value : Nat)
    (op inputs : String) : Except String (Wallet × Transaction) := do
  let account ← w.fetchAccount
  let address := w.address
  let _ ← account.validate_balance program_id value
  let payload := callPayload account address program_id to_ value op inputs
  let sig := signPayload w.sk payload
  let transaction : Transaction := ⟨payload, sig⟩
  let deltas ← w.client.call transaction
  let account₁ ← w.account.apply_call_transaction transaction deltas
  pure ({ w with account := account₁ }, transaction)

/-- GraphEntry from src/src/token.rs lines 246-250: a transaction and the
digests of the transactions it causally depends on. -/
structure GraphEntry where
  transaction : Transaction
  dependencies : List Digest
deriving DecidableEq, Repr

/-- TransactionGraph from src/src/token.rs lines 241-244: a BTreeMap from
32-byte digest to GraphEntry, embedded as its sorted entry list. -/
structure TransactionGraph where
  transactions : List (Digest × GraphEntry)
deriving DecidableEq, Repr

/-- One step of Kahn topological sorting: the first pending entry (in
ascending key order, as the BTreeMap iterates) whose dependencies are all
already emitted or absent from the window. -/
def readyEntry (done : List Digest) (pending : List (Digest × GraphEntry)) :
    Option (Digest × GraphEntry) :=
  pending.find? (fun e => e.2.dependencies.all
    (fun d => done.contains d || !(pending.any (fun p => p.1 == d))))

/-- Modelled from the spec: execution order is a topological order of the
graph (no executor is under src/).  Kahn algorithm with fuel; none when a
dependency cycle blocks progress. -/
def topoTransactions (fuel : Nat) (done : List Digest)
    (pending : List (Digest × GraphEntry)) : Option (List Transaction) :=
  match fuel with
  | 0 => match pending with | [] => some [] | _ => none
  | fuel₁ + 1 =>
    match pending with
    | [] => some []
    | _ =>
      match readyEntry done pending with
      | none => none
      | some e =>
        (topoTransactions fuel₁ (e.1 :: done)
          (pending.filter (fun p => !(p.1 == e.1)))).map
          (fun rest => e.2.transaction :: rest)

/-- The transactions of a graph in the deterministic topological order. -/
def TransactionGraph.topologicalOrder (g : TransactionGraph) :
    Option (List Transaction) :=
  topoTransactions g.transactions.length [] g.transactions

/-- Modelled from the spec: replaying a transaction graph against an
initial token state applies the transactions in topological order, the
semantics of one transaction being an opaque state-transition function
keyed by program identifier (the spec treats programs as opaque). -/
def replay (exec : Transaction → Token → Token) (g : TransactionGraph)
    (init : Token) : Option Token :=
  g.topologicalOrder.map (fun txs => txs.foldl (fun t tx => exec tx t) init)

/-- TOKEN_WITNESS_VERSION from src/src/token.rs line 8. -/
def TOKEN_WITNESS_VERSION : String := "0.1.0"

/-- TokenWitness from src/src/token.rs lines 230-239: user and token
addresses, initial token state, the transaction graph of the window, the
finalized token state, a signature and a version string. -/
structure TokenWitness where
  user : Address
  token : Address
  init : Token
  transactions : TransactionGraph
  finalized : Token
  sig : List Nat
  version : String
deriving DecidableEq, Repr

/-- Modelled from the spec: the Executor/Batcher boundary produces a
TokenWitness for a finalized window with finalized set to the result of
replaying the graph against init (no producer is under src/).  none when
the replay cannot complete. -/
def mkTokenWitness (exec : Transaction → Token → Token)
    (user token : Address) (init : Token) (g : TransactionGraph)
    (sig : List Nat) : Option TokenWitness :=
  (replay exec g init).map (fun fin =>
    { user := user
      token := token
      init := init
      transactions := g
      finalized := fin
      sig := sig
      version := TOKEN_WITNESS_VERSION })

/-- MAX_BATCH_SIZE from src/crates/actors/src/lib.rs line 27. -/
def MAX_BATCH_SIZE : Nat := 1024 * 512

/-- ETH_PROGRAM_ID from src/crates/actors/src/lib.rs line 28: [0u8; 20]. -/
def ETH_PROGRAM_ID : List Nat := List.replicate 20 0

/-- VERSE_PROGRAM_ID from src/crates/actors/src/lib.rs line 29. -/
def VERSE_PROGRAM_ID : List Nat :=
  [0, 0, 0, 0, 0, 0, 0, 0, 0, 0, 0, 0, 0, 0, 0, 0, 0, 0, 0, 1]

/-! ### Helper lemmas and concrete instances -/

/-- Characterization of Token::update_balance: it succeeds exactly when the
credit does not overflow and the debit does not underflow, and then the new
balance is the old balance plus receive minus send.  No condition on status
appears. -/
theorem update_balance_char (t : Token) (receive send : Nat) :
    Token.update_balance t receive send =
      if t.balance + receive < U256.size ∧ send ≤ t.balance + receive then
        some { t with balance := t.balance + receive - send }
      else none := by
  unfold Token.update_balance u256Add u256Sub
  by_cases h₁ : t.balance + receive < U256.size <;>
    by_cases h₂ : send ≤ t.balance + receive <;>
      simp [h₁, h₂, bind, Option.bind, pure]

/-- Characterization of AddAssign: succeeds exactly when the sum stays below
2 to the 256, setting the balance to the sum. -/
theorem addAssign_char (t r : Token) :
    Token.addAssign t r =
      if t.balance + r.balance < U256.size then
        some { t with balance := t.balance + r.balance }
      else none := by
  unfold Token.addAssign u256Add
  split_ifs <;> simp [bind, Option.bind]

/-- Characterization of SubAssign: succeeds exactly when the right balance
does not exceed the left, setting the balance to the difference. -/
theorem subAssign_char (t r : Token) :
    Token.subAssign t r =
      if r.balance ≤ t.balance then
        some { t with balance := t.balance - r.balance }
      else none := by
  unfold Token.subAssign u256Sub
  split_ifs <;> simp [bind, Option.bind]

/-- A concrete short address used in concrete instances. -/
def addrA : Address := [1]

/-- Another concrete short address. -/
def addrB : Address := [2]

/-- A concrete Locked token with balance zero. -/
def sampleLocked : Token :=
  { program_id := addrA
    owner_id := addrB
    balance := 0
    metadata := []
    token_ids := []
    allowance := []
    approvals := []
    data := []
    status := .Locked }

/-- A concrete Free token with balance zero. -/
def sampleFree : Token := { sampleLocked with status := .Free }

/-! ### Order lemmas on byte-string keys (for the BTreeMap invariant) -/

/-- cmpBytes returns eq exactly on equal byte strings. -/
theorem cmpBytes_eq_iff : ∀ a b : List Nat, cmpBytes a b = .eq ↔ a = b := by
  intro a
  induction a with
  | nil => intro b; cases b <;> simp [cmpBytes]
  | cons x as ih =>
    intro b
    cases b with
    | nil => simp [cmpBytes]
    | cons y bs =>
      simp only [cmpBytes]
      split_ifs with h₁ h₂
      · constructor
        · intro h; simp at h
        · intro h
          injection h with hx _
          omega
      · constructor
        · intro h; simp at h
        · intro h
          injection h with hx _
          omega
      · have hxy : x = y := by omega
        subst hxy
        rw [ih bs]
        simp
  
/-- cmpBytes answers gt exactly when the swapped comparison answers lt. -/
theorem cmpBytes_gt_iff : ∀ a b : List Nat, cmpBytes a b = .gt ↔ cmpBytes b a = .lt := by
  intro a
  induction a with
  | nil => intro b; cases b <;> simp [cmpBytes]
  | cons x as ih =>
    intro b
    cases b with
    | nil => simp [cmpBytes]
    | cons y bs =>
      simp only [cmpBytes]
      split_ifs with h₁ h₂ h₃ <;> first
        | exact ih bs
        | (constructor <;> (intro h; simp at h)) <;> omega
        | omega
        | simp

/-- Transitivity of the strict lexicographic byte order. -/
theorem cmpBytes_lt_trans :
    ∀ a b c : List Nat, cmpBytes a b = .lt → cmpBytes b c = .lt →
      cmpBytes a c = .lt := by
  intro a
  induction a with
  | nil =>
    intro b c hab hbc
    cases b with
    | nil => simp [cmpBytes] at hab
    | cons y bs =>
      cases c with
      | nil => simp [cmpBytes] at hbc
      | cons z cs => simp [cmpBytes]
  | cons x as ih =>
    intro b c hab hbc
    cases b with
    | nil => simp [cmpBytes] at hab
    | cons y bs =>
      cases c with
      | nil => simp [cmpBytes] at hbc
      | cons z cs =>
        simp only [cmpBytes] at hab hbc ⊢
        split_ifs at hab hbc ⊢ <;>
          first
            | rfl
            | omega
            | exact ih bs cs hab hbc

/-- addrLtB answers true exactly when cmpBytes answers lt. -/
theorem addrLtB_iff (a b : Address) :
    addrLtB a b = true ↔ cmpBytes a b = .lt := by
  unfold addrLtB
  cases h : cmpBytes a b <;> decide

/-- Transitivity of addrLtB. -/
theorem addrLtB_trans (a b c : Address) (hab : addrLtB a b = true)
    (hbc : addrLtB b c = true) : addrLtB a c = true :=
  (addrLtB_iff a c).mpr
    (cmpBytes_lt_trans a b c ((addrLtB_iff a b).mp hab) ((addrLtB_iff b c).mp hbc))

/-- Strict order implies distinctness of keys. -/
theorem addrLtB_ne (a b : Address) (h : addrLtB a b = true) : a ≠ b := by
  intro he
  subst he
  have h₁ := (addrLtB_iff a a).mp h
  rw [(cmpBytes_eq_iff a a).mpr rfl] at h₁
  cases h₁

/-- mapInsert preserves the sorted-keys invariant of the BTreeMap. -/
theorem mapInsert_sorted (k : Address) (v : Nat) :
    ∀ m : AddrMap, mapKeysSorted m → mapKeysSorted (mapInsert k v m) := by
  intro m
  induction m with
  | nil => intro _; simp [mapInsert, mapKeysSorted]
  | cons p rest ih =>
    intro h
    obtain ⟨k₁, v₁⟩ := p
    have hparts := List.chain'_cons'.mp h
    have hhead := hparts.1
    have htail : mapKeysSorted rest := hparts.2
    simp only [mapInsert]
    cases hc : cmpBytes k k₁ with
    | lt =>
      refine List.chain'_cons'.mpr ⟨?_, h⟩
      intro b hb
      simp only [List.head?_cons, Option.mem_def, Option.some.injEq] at hb
      subst hb
      exact (addrLtB_iff k k₁).mpr hc
    | eq =>
      have hk : k = k₁ := (cmpBytes_eq_iff k k₁).mp hc
      subst hk
      exact List.chain'_cons'.mpr ⟨hhead, htail⟩
    | gt =>
      refine List.chain'_cons'.mpr ⟨?_, ih htail⟩
      intro b hb
      have hlt : addrLtB k₁ k = true :=
        (addrLtB_iff k₁ k).mpr ((cmpBytes_gt_iff k k₁).mp hc)
      cases rest with
      | nil =>
        simp only [mapInsert, List.head?_cons, Option.mem_def,
          Option.some.injEq] at hb
        subst hb
        exact hlt
      | cons q rest₂ =>
        obtain ⟨k₂, v₂⟩ := q
        simp only [mapInsert] at hb
        cases hc₂ : cmpBytes k k₂ with
        | lt =>
          rw [hc₂] at hb
          simp only [List.head?_cons, Option.mem_def, Option.some.injEq] at hb
          subst hb
          exact hlt
        | eq =>
          rw [hc₂] at hb
          simp only [List.head?_cons, Option.mem_def, Option.some.injEq] at hb
          subst hb
          exact hlt
        | gt =>
          rw [hc₂] at hb
          simp only [List.head?_cons, Option.mem_def, Option.some.injEq] at hb
          subst hb
          exact hhead (k₂, v₂) (by simp)

/-- mapRemove yields a sublist of the original entry list. -/
theorem mapRemove_sublist (k : Address) :
    ∀ m : AddrMap, (mapRemove k m).Sublist m := by
  intro m
  induction m with
  | nil => simp [mapRemove]
  | cons p rest ih =>
    obtain ⟨k₁, v₁⟩ := p
    simp only [mapRemove]
    cases hc : cmpBytes k k₁ with
    | lt => exact List.Sublist.cons₂ _ ih
    | eq => exact List.sublist_cons_self _ _
    | gt => exact List.Sublist.cons₂ _ ih

/-- The key relation of mapKeysSorted is transitive (packaged for the
Chain' lemmas of the library). -/
theorem addrPairTrans :
    IsTrans (Address × Nat) (fun p q => addrLtB p.1 q.1 = true) :=
  ⟨fun p q r hpq hqr => addrLtB_trans p.1 q.1 r.1 hpq hqr⟩

/-- mapRemove preserves the sorted-keys invariant. -/
theorem mapRemove_sorted (k : Address) (m : AddrMap)
    (h : mapKeysSorted m) : mapKeysSorted (mapRemove k m) := by
  haveI := addrPairTrans
  exact List.Chain'.sublist h (mapRemove_sublist k m)

/-! ### Claim theorems -/

/-- Claim C7: MAX_BATCH_SIZE is 524288 bytes, ETH_PROGRAM_ID is 20 zero
bytes, and VERSE_PROGRAM_ID is 20 bytes, the first 19 zero and the trailing
byte 1. -/
theorem contract_constants_spec :
    MAX_BATCH_SIZE = 524288 ∧
    ETH_PROGRAM_ID = List.replicate 20 0 ∧
    VERSE_PROGRAM_ID.length = 20 ∧
    VERSE_PROGRAM_ID.take 19 = List.replicate 19 0 ∧
    VERSE_PROGRAM_ID.getD 19 0 = 1 := by
  refine ⟨by norm_num [MAX_BATCH_SIZE], rfl, by decide, by decide, by decide⟩

/-- Claim C6: for every input, Wallet::send and Wallet::call return the
error of the unimplemented Wallet::account body (todo) before building,
signing or submitting any payload: no successful return is reachable. -/
theorem wallet_send_call_unimplemented (w : Wallet) (to_ program_id : Address)
    (value : Nat) (op inputs : String) :
    w.send to_ program_id value = .error "not yet implemented" ∧
    w.call program_id to_ value op inputs = .error "not yet implemented" :=
  ⟨rfl, rfl⟩

/-- Claim C9: the payload Wallet::call constructs carries the empty string
as inputs no matter what op and inputs arguments were supplied, its
transaction type is TransactionType.Send of the account nonce (which is no
Call value), and the whole payload equals the one Wallet::send builds for
the same account, addresses and value. -/
theorem call_payload_same_shape_as_send (account : Account)
    (address program_id to_ : Address) (value : Nat) (op inputs : String) :
    (callPayload account address program_id to_ value op inputs).inputs = "" ∧
    (callPayload account address program_id to_ value op inputs).transaction_type
      = TransactionType.Send account.nonce ∧
    callPayload account address program_id to_ value op inputs
      = sendPayload account address to_ program_id value :=
  ⟨rfl, rfl, rfl⟩

/-- A concrete account with nonce 5 for the nonce counterexample. -/
def nonceAccount : Account := { nonce := 5, tokens := [] }

/-- Claim C5 counterexample: for an account whose nonce is 5, the payload
Wallet::send constructs carries TransactionType.Send 5 — the current nonce,
not the strict successor 6 the claim demands. -/
theorem send_payload_nonce_counterexample :
    nonceAccount.nonce = 5 ∧
    (sendPayload nonceAccount addrA addrB addrA 0).transaction_type
      = TransactionType.Send 5 ∧
    ((sendPayload nonceAccount addrA addrB addrA 0).transaction_type
      = TransactionType.Send (nonceAccount.nonce + 1)) = False := by
  refine ⟨rfl, rfl, by simp [sendPayload, nonceAccount]⟩

/-- Claim C5 amended: every payload constructed by Wallet::send or
Wallet::call carries TransactionType.Send of the account snapshot's current
nonce, not its successor. -/
theorem payload_nonce_is_current_nonce (account : Account)
    (address program_id to_ : Address) (value : Nat) (op inputs : String) :
    (sendPayload account address to_ program_id value).transaction_type
      = TransactionType.Send account.nonce ∧
    (callPayload account address program_id to_ value op inputs).transaction_type
      = TransactionType.Send account.nonce :=
  ⟨rfl, rfl⟩

/-- Claim C2 counterexample: a Locked token with balance 0 has its balance
changed to 5 by Token::update_balance 5 0 and to 7 by AddAssign of a token
with balance 7: the mutations are not rejected and the balance does not
stay unchanged. -/
theorem locked_token_mutation_counterexample :
    sampleLocked.status = Status.Locked ∧
    sampleLocked.balance = 0 ∧
    (Token.update_balance sampleLocked 5 0).map Token.balance = some 5 ∧
    (Token.addAssign sampleLocked { sampleFree with balance := 7 }).map
      Token.balance = some 7 := by
  refine ⟨rfl, rfl, by decide, by decide⟩

/-- Claim C2 amended: a Locked token does not reject balance mutations.
Token::update_balance, AddAssign and SubAssign never read status: on a
Locked token each succeeds or fails purely by the U256 arithmetic and
mutates the balance exactly as it would on a Free token. -/
theorem locked_token_balance_mutates (t r : Token) (receive send : Nat)
    (_h : t.status = Status.Locked) :
    Token.update_balance t receive send =
      (if t.balance + receive < U256.size ∧ send ≤ t.balance + receive then
        some { t with balance := t.balance + receive - send }
      else none) ∧
    (Token.update_balance t receive send).map Token.balance
      = (Token.update_balance { t with status := Status.Free } receive send).map
          Token.balance ∧
    (Token.addAssign t r).map Token.balance
      = (Token.addAssign { t with status := Status.Free } r).map Token.balance ∧
    (Token.subAssign t r).map Token.balance
      = (Token.subAssign { t with status := Status.Free } r).map Token.balance := by
  refine ⟨update_balance_char t receive send, ?_, ?_, ?_⟩
  · rw [update_balance_char, update_balance_char]
    split_ifs <;> simp
  · rw [addAssign_char, addAssign_char]
    split_ifs <;> simp
  · rw [subAssign_char, subAssign_char]
    split_ifs <;> simp

/-- Claim C2 amended, witness: the locked sample token at receive 5, send 0
and a right-hand token of balance 7. -/
theorem locked_token_balance_mutates_witness :
    Token.update_balance sampleLocked 5 0 =
      (if sampleLocked.balance + 5 < U256.size ∧ 0 ≤ sampleLocked.balance + 5 then
        some { sampleLocked with balance := sampleLocked.balance + 5 - 0 }
      else none) ∧
    (Token.update_balance sampleLocked 5 0).map Token.balance
      = (Token.update_balance { sampleLocked with status := Status.Free } 5 0).map
          Token.balance ∧
    (Token.addAssign sampleLocked { sampleFree with balance := 7 }).map Token.balance
      = (Token.addAssign { sampleLocked with status := Status.Free }
          { sampleFree with balance := 7 }).map Token.balance ∧
    (Token.subAssign sampleLocked { sampleFree with balance := 7 }).map Token.balance
      = (Token.subAssign { sampleLocked with status := Status.Free }
          { sampleFree with balance := 7 }).map Token.balance :=
  locked_token_balance_mutates sampleLocked { sampleFree with balance := 7 } 5 0 rfl

/-- Claim C4: when the credit does not overflow 2 to the 256 and covers the
debit, Token::update_balance sets the balance to exactly
balance + receive - send; a Send of value v debits the sender by exactly v
via update_balance 0 v and credits the recipient by exactly v via
update_balance v 0, and the sum of the two balances is unchanged. -/
theorem update_balance_exact_conservation (t sender recipient : Token)
    (receive send v : Nat)
    (hov : t.balance + receive < U256.size)
    (hge : send ≤ t.balance + receive)
    (hs : sender.balance < U256.size)
    (hv : v ≤ sender.balance)
    (hr : recipient.balance + v < U256.size) :
    Token.update_balance t receive send
      = some { t with balance := t.balance + receive - send } ∧
    Token.update_balance sender 0 v
      = some { sender with balance := sender.balance - v } ∧
    Token.update_balance recipient v 0
      = some { recipient with balance := recipient.balance + v } ∧
    (sender.balance - v) + (recipient.balance + v)
      = sender.balance + recipient.balance := by
  refine ⟨?_, ?_, ?_, by omega⟩
  · rw [update_balance_char]
    simp [hov, hge]
  · rw [update_balance_char]
    simp [hs, hv]
  · rw [update_balance_char]
    simp [hr]

/-- Claim C4 witness: a token of balance 10 receiving 7 and sending 3, and
a transfer of 4 from a sender of balance 10 to a recipient of balance 2. -/
theorem update_balance_exact_conservation_witness :
    Token.update_balance { sampleFree with balance := 10 } 7 3
      = some { { sampleFree with balance := 10 } with balance :=
          { sampleFree with balance := 10 }.balance + 7 - 3 } ∧
    Token.update_balance { sampleFree with balance := 10 } 0 4
      = some { { sampleFree with balance := 10 } with balance :=
          { sampleFree with balance := 10 }.balance - 4 } ∧
    Token.update_balance { sampleFree with balance := 2 } 4 0
      = some { { sampleFree with balance := 2 } with balance :=
          { sampleFree with balance := 2 }.balance + 4 } ∧
    ({ sampleFree with balance := 10 }.balance - 4)
      + ({ sampleFree with balance := 2 }.balance + 4)
      = { sampleFree with balance := 10 }.balance
        + { sampleFree with balance := 2 }.balance :=
  update_balance_exact_conservation { sampleFree with balance := 10 }
    { sampleFree with balance := 10 } { sampleFree with balance := 2 }
    7 3 4 (by decide) (by decide) (by decide) (by decide) (by decide)

/-- Claim C10: whenever AddAssign completes on tokens t and r it changes
only the balance field of t, to t.balance + r.balance, leaving every other
field of t unchanged; independently, whenever SubAssign completes it
changes only the balance field, to t.balance - r.balance.  The two
operations are constrained separately, so each statement covers every pair
on which that operation alone completes (the U256 operators panic rather
than produce a value on overflow or underflow).  r is consumed by value
with only its balance read, so it contributes nothing but its balance. -/
theorem add_sub_assign_frame :
    (∀ t r t₁, Token.addAssign t r = some t₁ →
      t₁ = { t with balance := t.balance + r.balance } ∧
      t₁.balance = t.balance + r.balance ∧
      t₁.program_id = t.program_id ∧ t₁.owner_id = t.owner_id ∧
      t₁.metadata = t.metadata ∧ t₁.token_ids = t.token_ids ∧
      t₁.allowance = t.allowance ∧ t₁.approvals = t.approvals ∧
      t₁.data = t.data ∧ t₁.status = t.status) ∧
    (∀ t r t₂, Token.subAssign t r = some t₂ →
      t₂ = { t with balance := t.balance - r.balance } ∧
      t₂.balance = t.balance - r.balance ∧
      t₂.program_id = t.program_id ∧ t₂.owner_id = t.owner_id ∧
      t₂.metadata = t.metadata ∧ t₂.token_ids = t.token_ids ∧
      t₂.allowance = t.allowance ∧ t₂.approvals = t.approvals ∧
      t₂.data = t.data ∧ t₂.status = t.status) := by
  constructor
  · intro t r t₁ h
    rw [addAssign_char] at h
    by_cases hc : t.balance + r.balance < U256.size
    · rw [if_pos hc] at h
      have h₁ := Option.some.inj h
      subst h₁
      exact ⟨rfl, rfl, rfl, rfl, rfl, rfl, rfl, rfl, rfl, rfl⟩
    · rw [if_neg hc] at h
      exact absurd h (by simp)
  · intro t r t₂ h
    rw [subAssign_char] at h
    by_cases hc : r.balance ≤ t.balance
    · rw [if_pos hc] at h
      have h₁ := Option.some.inj h
      subst h₁
      exact ⟨rfl, rfl, rfl, rfl, rfl, rfl, rfl, rfl, rfl, rfl⟩
    · rw [if_neg hc] at h
      exact absurd h (by simp)

/-- Claim C10 witness: AddAssign on balances 0 and 5 — a pair on which
SubAssign would not complete, so the two conjuncts apply independently —
and SubAssign on balances 10 and 3. -/
theorem add_sub_assign_frame_witness :
    ({ sampleFree with balance := 5 } : Token)
      = { sampleFree with balance :=
          sampleFree.balance + ({ sampleLocked with balance := 5 } : Token).balance } ∧
    ({ sampleFree with balance := 7 } : Token)
      = { { sampleFree with balance := 10 } with balance :=
          ({ sampleFree with balance := 10 } : Token).balance
            - ({ sampleLocked with balance := 3 } : Token).balance } :=
  ⟨(add_sub_assign_frame.1 sampleFree { sampleLocked with balance := 5 }
      { sampleFree with balance := 5 } (by decide)).1,
   (add_sub_assign_frame.2 { sampleFree with balance := 10 }
      { sampleLocked with balance := 3 } { sampleFree with balance := 7 }
      (by decide)).1⟩

/-- Claim C3: every in-place Token mutation the code performs —
Token::update_balance, AddAssign and SubAssign — is expressible as exactly
one TokenFieldValue diff operation: one Balance Credit or Debit whose
application to the pre-state produces the same post-state.  The net effect
of update_balance receive send is the single diff Credit (receive - send)
or Debit (send - receive). -/
theorem mutations_single_diff :
    (∀ t receive send t₁, Token.update_balance t receive send = some t₁ →
      ∃ fv : TokenFieldValue, applyTokenFieldValue fv t = some t₁) ∧
    (∀ t r t₁, Token.addAssign t r = some t₁ →
      applyTokenFieldValue (.Balance (.Credit r.balance)) t = some t₁) ∧
    (∀ t r t₁, Token.subAssign t r = some t₁ →
      applyTokenFieldValue (.Balance (.Debit r.balance)) t = some t₁) := by
  refine ⟨?_, ?_, ?_⟩
  · intro t receive send t₁ h
    rw [update_balance_char] at h
    by_cases hc : t.balance + receive < U256.size ∧ send ≤ t.balance + receive
    · rw [if_pos hc] at h
      obtain ⟨hov, hge⟩ := hc
      have ht₁ := Option.some.inj h
      subst ht₁
      by_cases hs : send ≤ receive
      · refine ⟨.Balance (.Credit (receive - send)), ?_⟩
        have h₁ : t.balance + (receive - send) < U256.size := by omega
        have h₂ : t.balance + (receive - send) = t.balance + receive - send := by
          omega
        have h₃ : t.balance + receive - send < U256.size := by omega
        simp [applyTokenFieldValue, applyBalanceValue, u256Add, h₁, h₂, h₃]
      · refine ⟨.Balance (.Debit (send - receive)), ?_⟩
        have h₁ : send - receive ≤ t.balance := by omega
        have h₂ : t.balance - (send - receive) = t.balance + receive - send := by
          omega
        simp [applyTokenFieldValue, applyBalanceValue, u256Sub, h₁, h₂]
    · rw [if_neg hc] at h
      exact absurd h (by simp)
  · intro t r t₁ h
    rw [addAssign_char] at h
    by_cases hc : t.balance + r.balance < U256.size
    · rw [if_pos hc] at h
      have ht₁ := Option.some.inj h
      subst ht₁
      simp [applyTokenFieldValue, applyBalanceValue, u256Add, hc]
    · rw [if_neg hc] at h
      exact absurd h (by simp)
  · intro t r t₁ h
    rw [subAssign_char] at h
    by_cases hc : r.balance ≤ t.balance
    · rw [if_pos hc] at h
      have ht₁ := Option.some.inj h
      subst ht₁
      simp [applyTokenFieldValue, applyBalanceValue, u256Sub, hc]
    · rw [if_neg hc] at h
      exact absurd h (by simp)

/-- Claim C8: under the BTreeMap sorted-keys invariant, the allowance and
approvals mappings of a Token associate at most one amount with each
address — their keys are pairwise distinct — and iteration visits keys in
strictly ascending address order, so serialization or hashing over either
mapping is deterministic; the invariant is maintained by the map insert and
remove operations. -/
theorem token_maps_unique_ascending (t : Token) (k : Address) (v : Nat)
    (ha : mapKeysSorted t.allowance) (hp : mapKeysSorted t.approvals) :
    List.Pairwise (fun p q : Address × Nat =>
      addrLtB p.1 q.1 = true ∧ p.1 ≠ q.1) t.allowance ∧
    List.Pairwise (fun p q : Address × Nat =>
      addrLtB p.1 q.1 = true ∧ p.1 ≠ q.1) t.approvals ∧
    mapKeysSorted (mapInsert k v t.allowance) ∧
    mapKeysSorted (mapRemove k t.approvals) := by
  haveI := addrPairTrans
  refine ⟨?_, ?_, mapInsert_sorted k v _ ha, mapRemove_sorted k _ hp⟩
  · exact (List.chain'_iff_pairwise.mp ha).imp
      (fun h => ⟨h, addrLtB_ne _ _ h⟩)
  · exact (List.chain'_iff_pairwise.mp hp).imp
      (fun h => ⟨h, addrLtB_ne _ _ h⟩)

/-- A token with two-entry allowance and approvals maps in ascending key
order, for the map-invariant witness. -/
def mapToken : Token :=
  { sampleFree with
      allowance := [(addrA, 1), (addrB, 2)]
      approvals := [(addrA, 3), (addrB, 4)] }

/-- A sorted two-entry map satisfies the invariant. -/
theorem mapKeysSorted_pair (p q : Address × Nat)
    (h : addrLtB p.1 q.1 = true) : mapKeysSorted [p, q] :=
  List.chain'_cons.mpr ⟨h, List.chain'_singleton q⟩

/-- Claim C8 witness: the two-entry sample token, inserting key addrB. -/
theorem token_maps_unique_ascending_witness :
    List.Pairwise (fun p q : Address × Nat =>
      addrLtB p.1 q.1 = true ∧ p.1 ≠ q.1) mapToken.allowance ∧
    List.Pairwise (fun p q : Address × Nat =>
      addrLtB p.1 q.1 = true ∧ p.1 ≠ q.1) mapToken.approvals ∧
    mapKeysSorted (mapInsert addrB 9 mapToken.allowance) ∧
    mapKeysSorted (mapRemove addrB mapToken.approvals) :=
  token_maps_unique_ascending mapToken addrB 9
    (mapKeysSorted_pair (addrA, 1) (addrB, 2) (by decide))
    (mapKeysSorted_pair (addrA, 3) (addrB, 4) (by decide))

/-- The opaque per-transaction state transition used in the replay witness:
credit the token by the transaction value. -/
def creditExec : Transaction → Token → Token :=
  fun tx t => { t with balance := t.balance + tx.payload.value }

/-- A concrete transaction of value 10 for the replay witness. -/
def txA : Transaction :=
  { payload := sendPayload { nonce := 0, tokens := [] } addrA addrB addrA 10
    sig := [] }

/-- A concrete transaction of value 5 for the replay witness. -/
def txB : Transaction :=
  { payload := sendPayload { nonce := 1, tokens := [] } addrA addrB addrA 5
    sig := [] }

/-- A two-node transaction graph in which the second transaction depends on
the first. -/
def sampleGraph : TransactionGraph :=
  { transactions :=
      [([1], { transaction := txA, dependencies := [] }),
       ([2], { transaction := txB, dependencies := [[1]] })] }

/-- The token witness the modelled producer builds over sampleGraph from
the free sample token: replaying credits 10 then 5. -/
def sampleWitnessVal : TokenWitness :=
  { user := addrA
    token := addrB
    init := sampleFree
    transactions := sampleGraph
    finalized := { sampleFree with balance := 15 }
    sig := []
    version := TOKEN_WITNESS_VERSION }

/-- Claim C1: for every TokenWitness the modelled producer emits, replaying
the transactions of its TransactionGraph in topological order against its
init token yields exactly its finalized token, and the replay is a pure
function of the witness, so running it twice yields identical results. -/
theorem tokenWitness_replay_deterministic
    (exec : Transaction → Token → Token) (user token : Address)
    (init : Token) (g : TransactionGraph) (sig : List Nat) (w : TokenWitness)
    (h : mkTokenWitness exec user token init g sig = some w) :
    replay exec w.transactions w.init = some w.finalized ∧
    replay exec w.transactions w.init = replay exec w.transactions w.init := by
  unfold mkTokenWitness at h
  cases hr : replay exec g init with
  | none => rw [hr] at h; cases h
  | some fin =>
    rw [hr] at h
    simp only [Option.map_some'] at h
    have hw := Option.some.inj h
    subst hw
    exact ⟨hr, rfl⟩

/-- Claim C1 witness: the two-transaction sample graph replayed over the
free sample token reproduces the finalized balance 15. -/
theorem tokenWitness_replay_deterministic_witness :
    replay creditExec sampleWitnessVal.transactions sampleWitnessVal.init
      = some sampleWitnessVal.finalized ∧
    replay creditExec sampleWitnessVal.transactions sampleWitnessVal.init
      = replay creditExec sampleWitnessVal.transactions sampleWitnessVal.init :=
  tokenWitness_replay_deterministic creditExec addrA addrB sampleFree
    sampleGraph [] sampleWitnessVal (by decide)

end Lasr
